import Mathlib

/-!
# Verification of the petshop repository specification

Two groups of definitions:

* The **Versioned Slot Store / Schema Registry** core (sections 2-4 of the
  spec): the repository ships only its design description, so the data model
  (`ComponentLayout`, `SchemaVersion`, `SlotAssignment`, `MigrationReport`),
  the `MigrationValidator.validate` algorithm, the `SlotStore` and the
  `UpgradeCoordinator.upgrade` sequence are modelled from the spec text.

* The Solidity contracts present in the sources: `SimpleToken`
  (src/contracts/PetShop.sol, first file of part_001) and
  `PetShopV3.mintToken` (part_002), embedded as pure functions on explicit
  state, with reverts as `Except.error` carrying the revert reason and
  uint256 overflow checks made explicit (Solidity >= 0.8 checked arithmetic).
-/

namespace PetShop

/-! ## Versioned Slot Store: data model -/

/-- Modelled from the spec: `ComponentLayout` is
`{ component_id: string, slot_count: unsigned integer >= 0 }` (spec section 3);
the repository implements no such type, only describes it. -/
structure ComponentLayout where
  component_id : String
  slot_count : Nat
deriving DecidableEq, Repr

/-- Modelled from the spec: `SchemaVersion` is
`{ version_number, ordered sequence of ComponentLayout, initializer_tag }`
(spec section 3); order matters, it defines the slot assignment. -/
structure SchemaVersion where
  version_number : Nat
  components : List ComponentLayout
  initializer_tag : String
deriving DecidableEq, Repr

/-- Total slot count of a list of component layouts. -/
def sumCounts (comps : List ComponentLayout) : Nat :=
  (comps.map ComponentLayout.slot_count).sum

/-- A schema version whose component ids are duplicate-free; the spec makes
construction with a duplicate component_id fail with `DuplicateComponent`
(section 4.2), so every constructed `SchemaVersion` satisfies this. -/
def wellFormed (sv : SchemaVersion) : Prop :=
  (sv.components.map ComponentLayout.component_id).Nodup

instance (sv : SchemaVersion) : Decidable (wellFormed sv) := by
  unfold wellFormed; infer_instance

/-- Modelled from the spec: walk the components in declared order starting at
`offset`, assigning each the half-open range `[offset, offset + slot_count)`
(represented as `(component_id, start, length)`) and advancing the offset by
`slot_count` (spec section 4.2). -/
def assignFrom (offset : Nat) : List ComponentLayout → List (String × Nat × Nat)
  | [] => []
  | c :: rest => (c.component_id, offset, c.slot_count) :: assignFrom (offset + c.slot_count) rest

/-- Modelled from the spec: the `SlotAssignment` derived from a
`SchemaVersion`, computed deterministically by walking its ordered components
and accumulating offsets, starting at slot 0 (spec sections 3 and 4.2). -/
def slotAssignment (sv : SchemaVersion) : List (String × Nat × Nat) :=
  assignFrom 0 sv.components

/-- The store high-water mark implied by a schema: one past the highest slot
used by it (prefix sum of all slot counts). -/
def totalSlots (sv : SchemaVersion) : Nat :=
  sumCounts sv.components

/-- Look up the range assigned to `cid`: first matching entry, if any. -/
def findRange (cid : String) : List (String × Nat × Nat) → Option (Nat × Nat)
  | [] => none
  | e :: rest => if e.1 = cid then some e.2 else findRange cid rest

/-- Modelled from the spec: conflicts reported by the validator, either a
layout conflict `{component_id, expected_range, actual_range}` or a
version-ordering conflict (spec sections 3, 4.3 and 7). -/
inductive Conflict where
  | layout (component_id : String) (expected actual : Option (Nat × Nat))
  | versionOrdering (oldVersion newVersion : Nat)
deriving DecidableEq, Repr

/-- Modelled from the spec: `MigrationReport` is
`{ accepted: boolean, conflicts: ordered sequence }` (spec section 3). -/
structure MigrationReport where
  accepted : Bool
  conflicts : List Conflict
deriving DecidableEq, Repr

/-! ## MigrationValidator (spec section 4.3) -/

/-- Step 2 of `validate`: a component present in `old`'s assignment must be
present in `new`'s assignment with an identical range (same start, same
length); any mismatch (missing, shifted start, changed length) is a
conflict. -/
def checkOld (newAsgn : List (String × Nat × Nat)) (e : String × Nat × Nat) : Option Conflict :=
  let r := findRange e.1 newAsgn
  if r = some e.2 then none
  else some (.layout e.1 (some e.2) r)

/-- Step 3 of `validate`: a component present only in `new` is permitted only
if its assigned range lies entirely beyond the highest slot used by `old`,
i.e. its start is at or beyond `old`'s high-water mark. -/
def checkNew (oldAsgn : List (String × Nat × Nat)) (oldHigh : Nat) (e : String × Nat × Nat) : Option Conflict :=
  if (findRange e.1 oldAsgn).isSome then none
  else if oldHigh ≤ e.2.1 then none
  else some (.layout e.1 none (some e.2))

/-- Modelled from the spec: `validate(old, new) -> MigrationReport`
(spec section 4.3). Computes both slot assignments, collects every layout
conflict from steps 2 and 3 and the version-ordering conflict from step 4,
and accepts exactly when the conflict list is empty (step 5). -/
def validate (old cand : SchemaVersion) : MigrationReport :=
  let oldA := slotAssignment old
  let newA := slotAssignment cand
  let cs :=
    oldA.filterMap (checkOld newA) ++
    newA.filterMap (checkNew oldA (totalSlots old)) ++
    (if old.version_number < cand.version_number then []
     else [.versionOrdering old.version_number cand.version_number])
  { accepted := cs.isEmpty, conflicts := cs }

/-! ## SlotStore and UpgradeCoordinator (spec sections 4.1 and 4.4) -/

/-- Modelled from the spec: `SlotStore` is the exclusive custodian of the
sparse slot -> value mapping together with the append-only high-water mark
(spec section 4.1); values are abstract, modelled as `Nat`. -/
structure SlotStore where
  contents : List (Nat × Nat)
  highWater : Nat
deriving DecidableEq, Repr

/-- `get(slot) -> value or Unallocated`: never fails, `none` marks an
unallocated slot. -/
def SlotStore.get (st : SlotStore) (slot : Nat) : Option Nat :=
  (st.contents.find? (fun e => e.1 = slot)).map (fun e => e.2)

/-- `set(slot, value)`: always succeeds; overwrites or allocates. -/
def SlotStore.set (st : SlotStore) (slot value : Nat) : SlotStore :=
  { st with contents := (slot, value) :: st.contents.filter (fun e => ¬ e.1 = slot) }

/-- `allocate_range(count) -> starting_slot`: reserves `count` consecutive
slots at the current high-water mark and advances the mark by `count`. -/
def SlotStore.allocate_range (st : SlotStore) (count : Nat) : Nat × SlotStore :=
  (st.highWater, { st with highWater := st.highWater + count })

/-- Modelled from the spec: the store state owned by the coordinator, the
active `SchemaVersion` plus the `SlotStore` (spec sections 2 and 4.4). -/
structure Store where
  active : SchemaVersion
  slots : SlotStore
deriving DecidableEq, Repr

/-- Outcome of one upgrade attempt: `committed`, `rejected` with the report's
conflict list surfaced to the caller, or `initializerFailed` (spec
sections 4.4 and 7). -/
inductive UpgradeOutcome where
  | committed
  | rejected (conflicts : List Conflict)
  | initializerFailed
deriving DecidableEq, Repr

/-- An initializer callback: receives the allocated ranges of the new
components and the slot store, and either returns the initialized store or
fails (spec sections 4.4, 6 and 7). -/
def Initializer : Type :=
  List (String × Nat × Nat) → SlotStore → Option SlotStore

/-- Modelled from the spec: for each component of the candidate assignment
not already present in `old`'s assignment, call `allocate_range` exactly once
(never on components already present in `old`), collecting the allocated
ranges to hand to the initializer (spec section 4.4). -/
def allocateRanges (oldAsgn : List (String × Nat × Nat)) :
    List (String × Nat × Nat) → SlotStore → List (String × Nat × Nat) × SlotStore
  | [], st => ([], st)
  | e :: rest, st =>
    if (findRange e.1 oldAsgn).isSome then allocateRanges oldAsgn rest st
    else
      let alloc := st.allocate_range e.2.2
      let recurse := allocateRanges oldAsgn rest alloc.2
      ((e.1, alloc.1, e.2.2) :: recurse.1, recurse.2)

/-- Modelled from the spec: `UpgradeCoordinator`'s sequence
validate -> swap active schema -> run the one-time initializer
(spec section 4.4). Rejection leaves the store untouched and surfaces the
conflict list; the schema swap and the initializer form a single atomic
unit, so an initializer failure rolls the swap back and the prior committed
schema stays authoritative (spec sections 4.4 and 7). -/
def upgrade (store : Store) (candidate : SchemaVersion) (init : Initializer) :
    Store × UpgradeOutcome :=
  let report := validate store.active candidate
  if report.accepted then
    let ars := allocateRanges (slotAssignment store.active) (slotAssignment candidate) store.slots
    match init ars.1 ars.2 with
    | some st => ({ active := candidate, slots := st }, .committed)
    | none => (store, .initializerFailed)
  else
    (store, .rejected report.conflicts)

/-! ## SimpleToken (src/contracts/PetShop.sol sources: SimpleToken.sol) -/

/-- Ethereum account addresses, abstracted to naturals. -/
abbrev Address := Nat

/-- uint256 arithmetic is checked in Solidity >= 0.8: values live below
`2 ^ 256` and overflowing operations revert. -/
def UINT256_MOD : Nat := 2 ^ 256

/-- A `Transfer(address indexed _from, address indexed _to, uint256 _value)`
event as emitted by `SimpleToken.transfer`. -/
structure TransferEvent where
  from_ : Address
  to_ : Address
  value : Nat
deriving DecidableEq, Repr

/-- The storage of the `SimpleToken` contract: `name`, `symbol`,
`totalSupply`, `owner` and the `balances` mapping (sparse, association list,
absent address means balance 0). -/
structure TokenState where
  name : String
  symbol : String
  totalSupply : Nat
  owner : Address
  balances : List (Address × Nat)
deriving DecidableEq, Repr

/-- Balance of `a` in the sparse `balances` mapping (0 when absent). -/
def getBalance (bs : List (Address × Nat)) (a : Address) : Nat :=
  match bs with
  | [] => 0
  | e :: rest => if e.1 = a then e.2 else getBalance rest a

/-- Write `balances[a] = v`: overwrite the existing entry, or append one. -/
def setBalance (bs : List (Address × Nat)) (a : Address) (v : Nat) : List (Address × Nat) :=
  match bs with
  | [] => [(a, v)]
  | e :: rest => if e.1 = a then (a, v) :: rest else e :: setBalance rest a v

/-- `SimpleToken`'s constructor: `balances[msg.sender] = totalSupply;
owner = msg.sender;` with `name`, `symbol` and `totalSupply = 1_000_000`
from the state-variable initializers. -/
def constructor (deployer : Address) : TokenState :=
  { name := "My Simple Token"
    symbol := "MST"
    totalSupply := 1000000
    owner := deployer
    balances := [(deployer, 1000000)] }

/-- `SimpleToken.transfer(to, amount)` called by `sender`:
`require(balances[msg.sender] >= amount, "Not enough tokens")`, then, only
when `msg.sender != to`, `balances[msg.sender] -= amount;
balances[to] += amount; emit Transfer(msg.sender, to, amount)`. A revert
(including the checked-arithmetic revert of `balances[to] += amount`)
returns `Except.error` and the caller's state is unchanged. Returns the
post-state and the emitted events. -/
def transfer (st : TokenState) (sender to_ : Address) (amount : Nat) :
    Except String (TokenState × List TransferEvent) :=
  if getBalance st.balances sender < amount then .error "Not enough tokens"
  else if sender ≠ to_ then
    let bs1 := setBalance st.balances sender (getBalance st.balances sender - amount)
    if UINT256_MOD ≤ getBalance bs1 to_ + amount then .error "arithmetic overflow"
    else
      .ok ({ st with balances := setBalance bs1 to_ (getBalance bs1 to_ + amount) },
           [⟨sender, to_, amount⟩])
  else .ok (st, [])

/-- Sum of all account balances recorded in the mapping. -/
def sumBalances (bs : List (Address × Nat)) : Nat :=
  (bs.map (fun e => e.2)).sum

/-- The state reached after a `transfer` transaction: the new state on
success, the unchanged pre-state when the transaction reverted. -/
def transferPost (st : TokenState) (sender to_ : Address) (amount : Nat) : TokenState :=
  match transfer st sender to_ amount with
  | .ok r => r.1
  | .error _ => st

/-! ## PetShopV3.mintToken (sources part_002) -/

/-- `uint256 public constant TOTAL_SUPPLY = 10_000;` of `PetShopV3`. -/
def TOTAL_SUPPLY : Nat := 10000

/-- `uint256 public constant MINT_PRICE = 0.08 ether;` of `PetShopV3`,
in wei. -/
def MINT_PRICE : Nat := 80000000000000000

/-- The storage of `PetShopV3` relevant to `mintToken`: the `tokenIds`
counter, the ERC721 owner and token-URI mappings, and the contract's ether
balance (mintToken is payable). -/
structure NFTState where
  tokenIds : Nat
  owners : List (Nat × Address)
  tokenURIs : List (Nat × String)
  balance : Nat
deriving DecidableEq, Repr

/-- `PetShopV3.mintToken(_tokenURI, _to)` called with `msg.value = msgValue`:
`require(lastTokenId < TOTAL_SUPPLY, "Max supply reached")`,
`require(msg.value == MINT_PRICE, "Transaction value did not equal the mint price")`,
then increment the counter, `_safeMint(_to, newTokenId)` and
`_setTokenURI(newTokenId, _tokenURI)` (the ERC721 library internals are
external to the repository and modelled as recording the owner and URI),
returning `newTokenId`. -/
def mintToken (st : NFTState) (tokenURI : String) (to_ : Address) (msgValue : Nat) :
    Except String (NFTState × Nat) :=
  let lastTokenId := st.tokenIds
  if ¬ lastTokenId < TOTAL_SUPPLY then .error "Max supply reached"
  else if ¬ msgValue = MINT_PRICE then .error "Transaction value did not equal the mint price"
  else
    let newTokenId := lastTokenId + 1
    .ok ({ tokenIds := newTokenId
           owners := (newTokenId, to_) :: st.owners
           tokenURIs := (newTokenId, tokenURI) :: st.tokenURIs
           balance := st.balance + msgValue }, newTokenId)

/-- One step of the schema sequences of spec section 8: `cand` is built from
`old` by strictly appending new ComponentLayouts after the existing ones,
with unchanged names and counts, at a strictly larger version number. -/
def appendsTo (old cand : SchemaVersion) : Prop :=
  old.version_number < cand.version_number ∧
  ∃ extra, cand.components = old.components ++ extra

/-! ## Concrete instances used as evaluation inputs -/

/-- The spec's concrete scenario (section 8): `V1 = [("erc721base", 5)]`. -/
def exV1 : SchemaVersion := ⟨1, [⟨"erc721base", 5⟩], "init-v1"⟩

/-- The spec's concrete scenario: `V2 = [("erc721base", 5), ("counter", 1)]`. -/
def exV2 : SchemaVersion := ⟨2, [⟨"erc721base", 5⟩, ⟨"counter", 1⟩], "init-v2"⟩

/-- The spec's concrete scenario: the invalid
`V3 = [("erc721base", 5), ("escrow", 3), ("counter", 1)]` that inserts
`escrow` in the middle. -/
def exV3bad : SchemaVersion := ⟨3, [⟨"erc721base", 5⟩, ⟨"escrow", 3⟩, ⟨"counter", 1⟩], "init-v3"⟩

/-- The spec's concrete scenario: the corrected
`V3 = [("erc721base", 5), ("counter", 1), ("escrow", 3), ("owner", 1)]`. -/
def exV3good : SchemaVersion :=
  ⟨3, [⟨"erc721base", 5⟩, ⟨"counter", 1⟩, ⟨"escrow", 3⟩, ⟨"owner", 1⟩], "init-v3"⟩

/-- A store whose active schema is `exV2`, high-water mark 6. -/
def exStore : Store := ⟨exV2, ⟨[], 6⟩⟩

/-- An initializer that succeeds without touching the store. -/
def initOk : Initializer := fun _ st => some st

/-- An initializer that always fails. -/
def initFail : Initializer := fun _ _ => none

/-- Reordering counterexample: `[("a", 0), ("m", 1), ("b", 0)]`. -/
def swapOld : SchemaVersion := ⟨1, [⟨"a", 0⟩, ⟨"m", 1⟩, ⟨"b", 0⟩], "t1"⟩

/-- Reordering counterexample: `[("b", 0), ("m", 1), ("a", 0)]`, the same set
of layouts with the length-0 components `a` and `b` swapped. -/
def swapNew : SchemaVersion := ⟨2, [⟨"b", 0⟩, ⟨"m", 1⟩, ⟨"a", 0⟩], "t2"⟩

/-! ## Helper lemmas: slot assignment and range lookup -/

theorem sumCounts_cons (c : ComponentLayout) (rest : List ComponentLayout) :
    sumCounts (c :: rest) = c.slot_count + sumCounts rest := by
  simp [sumCounts]

theorem assignFrom_append (off : Nat) (xs ys : List ComponentLayout) :
    assignFrom off (xs ++ ys) = assignFrom off xs ++ assignFrom (off + sumCounts xs) ys := by
  induction xs generalizing off with
  | nil => simp [assignFrom, sumCounts]
  | cons c rest ih =>
    simp only [List.cons_append, assignFrom, List.append_eq, ih, sumCounts_cons]
    rw [← Nat.add_assoc]

theorem map_fst_assignFrom (off : Nat) (comps : List ComponentLayout) :
    (assignFrom off comps).map (fun e => e.1) = comps.map ComponentLayout.component_id := by
  induction comps generalizing off with
  | nil => simp [assignFrom]
  | cons c rest ih => simp [assignFrom, ih]

theorem length_assignFrom (off : Nat) (comps : List ComponentLayout) :
    (assignFrom off comps).length = comps.length := by
  induction comps generalizing off with
  | nil => simp [assignFrom]
  | cons c rest ih => simp [assignFrom, ih]

theorem mem_assignFrom_start_le {e : String × Nat × Nat} {off : Nat}
    {comps : List ComponentLayout} (h : e ∈ assignFrom off comps) : off ≤ e.2.1 := by
  induction comps generalizing off with
  | nil => simp [assignFrom] at h
  | cons c rest ih =>
    simp only [assignFrom, List.mem_cons] at h
    rcases h with h | h
    · subst h; exact Nat.le_refl _
    · exact Nat.le_trans (Nat.le_add_right _ _) (ih h)

theorem findRange_eq_none_iff {cid : String} {l : List (String × Nat × Nat)} :
    findRange cid l = none ↔ cid ∉ l.map (fun e => e.1) := by
  induction l with
  | nil => simp [findRange]
  | cons e rest ih =>
    by_cases h : e.1 = cid
    · simp [findRange, h]
    · simp [findRange, h, ih, Ne.symm h]

theorem findRange_isSome_iff {cid : String} {l : List (String × Nat × Nat)} :
    (findRange cid l).isSome = true ↔ cid ∈ l.map (fun e => e.1) := by
  induction l with
  | nil => simp [findRange]
  | cons e rest ih =>
    by_cases h : e.1 = cid
    · simp [findRange, h]
    · simp [findRange, h, ih, Ne.symm h]

theorem findRange_append_left {cid : String} {A B : List (String × Nat × Nat)}
    {r : Nat × Nat} (h : findRange cid A = some r) :
    findRange cid (A ++ B) = some r := by
  induction A with
  | nil => simp [findRange] at h
  | cons e rest ih =>
    by_cases he : e.1 = cid
    · simp [findRange, he] at h ⊢; exact h
    · simp [findRange, he] at h ⊢; exact ih h

theorem findRange_append_right {cid : String} {A B : List (String × Nat × Nat)}
    (h : findRange cid A = none) :
    findRange cid (A ++ B) = findRange cid B := by
  induction A with
  | nil => simp
  | cons e rest ih =>
    by_cases he : e.1 = cid
    · simp [findRange, he] at h
    · simp [findRange, he] at h ⊢; exact ih h

theorem findRange_of_mem_nodup {e : String × Nat × Nat} {l : List (String × Nat × Nat)}
    (hnd : (l.map (fun x => x.1)).Nodup) (hm : e ∈ l) :
    findRange e.1 l = some e.2 := by
  induction l with
  | nil => simp at hm
  | cons x rest ih =>
    simp only [List.map_cons, List.nodup_cons] at hnd
    rcases List.mem_cons.mp hm with h | h
    · subst h; simp [findRange]
    · have hne : x.1 ≠ e.1 := by
        intro hx
        exact hnd.1 (hx ▸ List.mem_map.mpr ⟨e, h, rfl⟩)
      simp [findRange, hne]
      exact ih hnd.2 h

theorem findRange_isSome_of_mem {e : String × Nat × Nat} {l : List (String × Nat × Nat)}
    (hm : e ∈ l) : (findRange e.1 l).isSome = true := by
  exact findRange_isSome_iff.mpr (List.mem_map.mpr ⟨e, hm, rfl⟩)

/-! ## Helper lemmas: the validator -/

theorem validate_conflicts (old cand : SchemaVersion) :
    (validate old cand).conflicts =
      (slotAssignment old).filterMap (checkOld (slotAssignment cand)) ++
      (slotAssignment cand).filterMap (checkNew (slotAssignment old) (totalSlots old)) ++
      (if old.version_number < cand.version_number then []
       else [.versionOrdering old.version_number cand.version_number]) := rfl

theorem validate_accepted_eq (old cand : SchemaVersion) :
    (validate old cand).accepted = (validate old cand).conflicts.isEmpty := rfl

theorem accepted_iff_conflicts_eq_nil (old cand : SchemaVersion) :
    (validate old cand).accepted = true ↔ (validate old cand).conflicts = [] := by
  rw [validate_accepted_eq, List.isEmpty_iff]

theorem mem_conflicts_of_old_mismatch {old cand : SchemaVersion}
    {e : String × Nat × Nat} (hm : e ∈ slotAssignment old)
    (hne : findRange e.1 (slotAssignment cand) ≠ some e.2) :
    Conflict.layout e.1 (some e.2) (findRange e.1 (slotAssignment cand)) ∈
      (validate old cand).conflicts := by
  rw [validate_conflicts]
  refine List.mem_append.mpr (Or.inl (List.mem_append.mpr (Or.inl ?_)))
  exact List.mem_filterMap.mpr ⟨e, hm, by simp [checkOld, hne]⟩

theorem mem_conflicts_of_new_inserted {old cand : SchemaVersion}
    {e : String × Nat × Nat} (hm : e ∈ slotAssignment cand)
    (hnone : findRange e.1 (slotAssignment old) = none)
    (hlt : e.2.1 < totalSlots old) :
    Conflict.layout e.1 none (some e.2) ∈ (validate old cand).conflicts := by
  rw [validate_conflicts]
  refine List.mem_append.mpr (Or.inl (List.mem_append.mpr (Or.inr ?_)))
  refine List.mem_filterMap.mpr ⟨e, hm, ?_⟩
  simp [checkNew, hnone, Nat.not_le.mpr hlt]

theorem mem_conflicts_of_version {old cand : SchemaVersion}
    (h : ¬ old.version_number < cand.version_number) :
    Conflict.versionOrdering old.version_number cand.version_number ∈
      (validate old cand).conflicts := by
  rw [validate_conflicts]
  refine List.mem_append.mpr (Or.inr ?_)
  simp [h]

theorem version_lt_of_accepted {old cand : SchemaVersion}
    (h : (validate old cand).accepted = true) :
    old.version_number < cand.version_number := by
  by_contra hv
  have := mem_conflicts_of_version hv
  rw [(accepted_iff_conflicts_eq_nil old cand).mp h] at this
  simp at this

theorem not_accepted_of_mem_conflicts {old cand : SchemaVersion} {c : Conflict}
    (h : c ∈ (validate old cand).conflicts) :
    (validate old cand).accepted = false := by
  by_contra hb
  have ha : (validate old cand).accepted = true := by
    cases hacc : (validate old cand).accepted
    · exact absurd hacc hb
    · rfl
  rw [(accepted_iff_conflicts_eq_nil old cand).mp ha] at h
  simp at h

theorem slotAssignment_of_append {old cand : SchemaVersion}
    {extra : List ComponentLayout} (hc : cand.components = old.components ++ extra) :
    slotAssignment cand = slotAssignment old ++ assignFrom (totalSlots old) extra := by
  rw [slotAssignment, hc, assignFrom_append]
  simp [slotAssignment, totalSlots]

theorem accepted_of_append {old cand : SchemaVersion} {extra : List ComponentLayout}
    (hwf : wellFormed old)
    (hv : old.version_number < cand.version_number)
    (hc : cand.components = old.components ++ extra) :
    (validate old cand).accepted = true := by
  rw [accepted_iff_conflicts_eq_nil, validate_conflicts]
  have hnodupA : ((slotAssignment old).map (fun x => x.1)).Nodup := by
    rw [slotAssignment, map_fst_assignFrom]; exact hwf
  have hnewA := slotAssignment_of_append hc
  have h1 : (slotAssignment old).filterMap (checkOld (slotAssignment cand)) = [] := by
    rw [List.filterMap_eq_nil_iff]
    intro e he
    have hf : findRange e.1 (slotAssignment cand) = some e.2 := by
      rw [hnewA]
      exact findRange_append_left (findRange_of_mem_nodup hnodupA he)
    simp [checkOld, hf]
  have h2 : (slotAssignment cand).filterMap (checkNew (slotAssignment old) (totalSlots old)) = [] := by
    rw [List.filterMap_eq_nil_iff]
    intro e he
    rw [hnewA] at he
    rcases List.mem_append.mp he with h | h
    · simp [checkNew, findRange_isSome_of_mem h]
    · by_cases hs : (findRange e.1 (slotAssignment old)).isSome
      · simp [checkNew, hs]
      · have hle := mem_assignFrom_start_le h
        simp [checkNew, hs, hle]
  rw [h1, h2, if_pos hv]
  simp

theorem new_only_conflict_iff {old cand : SchemaVersion} {e : String × Nat × Nat}
    (hm : e ∈ slotAssignment cand)
    (hnone : findRange e.1 (slotAssignment old) = none) :
    Conflict.layout e.1 none (some e.2) ∈ (validate old cand).conflicts ↔
      e.2.1 < totalSlots old := by
  constructor
  · intro hc
    rw [validate_conflicts] at hc
    rcases List.mem_append.mp hc with hc | hc
    · rcases List.mem_append.mp hc with hc | hc
      · rcases List.mem_filterMap.mp hc with ⟨a, _, ha⟩
        rw [checkOld] at ha
        by_cases h : findRange a.1 (slotAssignment cand) = some a.2 <;> simp [h] at ha
      · rcases List.mem_filterMap.mp hc with ⟨a, ham, ha⟩
        rw [checkNew] at ha
        by_cases h1 : (findRange a.1 (slotAssignment old)).isSome
        · simp [h1] at ha
        · by_cases h2 : totalSlots old ≤ a.2.1
          · simp [h1, h2] at ha
          · simp [h1, h2] at ha
            rw [← ha.2]
            exact Nat.not_le.mp h2
    · by_cases hv : old.version_number < cand.version_number <;> simp [hv] at hc
  · intro hlt
    exact mem_conflicts_of_new_inserted hm hnone hlt

/-! ## Helper lemmas: reordered components -/

theorem findRange_assignFrom_not_mem {cid : String} {off : Nat}
    {comps : List ComponentLayout}
    (h : cid ∉ comps.map ComponentLayout.component_id) :
    findRange cid (assignFrom off comps) = none :=
  findRange_eq_none_iff.mpr (by rw [map_fst_assignFrom]; exact h)

theorem checkOld_eq_none_iff {newAsgn : List (String × Nat × Nat)}
    {e : String × Nat × Nat} :
    checkOld newAsgn e = none ↔ findRange e.1 newAsgn = some e.2 := by
  unfold checkOld
  by_cases h : findRange e.1 newAsgn = some e.2 <;> simp [h]

theorem assignFrom_swap_shape (x y : ComponentLayout) (pre mid post : List ComponentLayout) :
    assignFrom 0 (pre ++ x :: (mid ++ y :: post)) =
      assignFrom 0 pre ++
      ((x.component_id, sumCounts pre, x.slot_count) ::
       (assignFrom (sumCounts pre + x.slot_count) mid ++
        ((y.component_id, sumCounts pre + x.slot_count + sumCounts mid, y.slot_count) ::
         assignFrom (sumCounts pre + x.slot_count + sumCounts mid + y.slot_count) post))) := by
  rw [assignFrom_append]
  simp only [Nat.zero_add, assignFrom]
  rw [assignFrom_append]
  simp only [assignFrom]

theorem perm_swap_shape {α : Type _} (x y : α) (u v w : List α) :
    (u ++ x :: (v ++ y :: w)).Perm (u ++ y :: (v ++ x :: w)) := by
  refine List.Perm.append_left u ?_
  exact (List.Perm.cons x List.perm_middle).trans
    ((List.Perm.swap y x _).trans (List.Perm.cons y List.perm_middle.symm))

theorem accepted_of_perm_assignment {old cand : SchemaVersion}
    (hnd : ((slotAssignment old).map (fun e => e.1)).Nodup)
    (hperm : (slotAssignment old).Perm (slotAssignment cand))
    (hv : old.version_number < cand.version_number) :
    (validate old cand).accepted = true := by
  rw [accepted_iff_conflicts_eq_nil, validate_conflicts]
  have hndNew : ((slotAssignment cand).map (fun e => e.1)).Nodup :=
    ((hperm.map (fun e => e.1)).nodup_iff).mp hnd
  have h1 : (slotAssignment old).filterMap (checkOld (slotAssignment cand)) = [] := by
    rw [List.filterMap_eq_nil_iff]
    intro e he
    exact checkOld_eq_none_iff.mpr
      (findRange_of_mem_nodup hndNew (hperm.mem_iff.mp he))
  have h2 : (slotAssignment cand).filterMap (checkNew (slotAssignment old) (totalSlots old)) = [] := by
    rw [List.filterMap_eq_nil_iff]
    intro e he
    have : (findRange e.1 (slotAssignment old)).isSome = true :=
      findRange_isSome_of_mem (hperm.mem_iff.mpr he)
    simp [checkNew, this]
  rw [h1, h2, if_pos hv]
  simp

theorem swap_nodup_facts {pre mid post : List ComponentLayout} {a b : ComponentLayout}
    (hnd : ((pre ++ a :: (mid ++ b :: post)).map ComponentLayout.component_id).Nodup) :
    a.component_id ∉ pre.map ComponentLayout.component_id ∧
    b.component_id ∉ pre.map ComponentLayout.component_id ∧
    a.component_id ∉ mid.map ComponentLayout.component_id ∧
    b.component_id ∉ mid.map ComponentLayout.component_id ∧
    a.component_id ≠ b.component_id := by
  rw [List.map_append, List.map_cons, List.map_append, List.map_cons] at hnd
  have hdisj := List.disjoint_of_nodup_append hnd
  have hrest := hnd.of_append_right
  have hacons := List.nodup_cons.mp hrest
  have hmid := List.disjoint_of_nodup_append (List.Nodup.of_cons hrest)
  refine ⟨?_, ?_, ?_, ?_, ?_⟩
  · intro hmem
    exact hdisj hmem (List.mem_cons_self _ _)
  · intro hmem
    exact hdisj hmem
      (List.mem_cons_of_mem _ (List.mem_append_right _ (List.mem_cons_self _ _)))
  · intro hmem
    exact hacons.1 (List.mem_append_left _ hmem)
  · intro hmem
    exact hmid hmem (List.mem_cons_self _ _)
  · intro heq
    exact hacons.1 (List.mem_append_right _ (by rw [heq]; exact List.mem_cons_self _ _))

theorem findRange_swapped_first {x : ComponentLayout} (y : ComponentLayout)
    {pre : List ComponentLayout} (mid post : List ComponentLayout)
    (hx_pre : x.component_id ∉ pre.map ComponentLayout.component_id) :
    findRange x.component_id (assignFrom 0 (pre ++ x :: (mid ++ y :: post))) =
      some (sumCounts pre, x.slot_count) := by
  rw [assignFrom_swap_shape,
      findRange_append_right (findRange_assignFrom_not_mem hx_pre)]
  simp [findRange]

theorem findRange_swapped_second {x y : ComponentLayout}
    {pre mid : List ComponentLayout} (post : List ComponentLayout)
    (hy_pre : y.component_id ∉ pre.map ComponentLayout.component_id)
    (hxy : x.component_id ≠ y.component_id)
    (hy_mid : y.component_id ∉ mid.map ComponentLayout.component_id) :
    findRange y.component_id (assignFrom 0 (pre ++ x :: (mid ++ y :: post))) =
      some (sumCounts pre + x.slot_count + sumCounts mid, y.slot_count) := by
  rw [assignFrom_swap_shape,
      findRange_append_right (findRange_assignFrom_not_mem hy_pre)]
  rw [findRange, if_neg hxy]
  rw [findRange_append_right (findRange_assignFrom_not_mem hy_mid)]
  simp [findRange]

theorem mem_swap_first (x y : ComponentLayout) (pre mid post : List ComponentLayout) :
    (x.component_id, sumCounts pre, x.slot_count) ∈
      assignFrom 0 (pre ++ x :: (mid ++ y :: post)) := by
  rw [assignFrom_swap_shape]
  exact List.mem_append_right _ (List.mem_cons_self _ _)

theorem mem_swap_second (x y : ComponentLayout) (pre mid post : List ComponentLayout) :
    (y.component_id, sumCounts pre + x.slot_count + sumCounts mid, y.slot_count) ∈
      assignFrom 0 (pre ++ x :: (mid ++ y :: post)) := by
  rw [assignFrom_swap_shape]
  exact List.mem_append_right _
    (List.mem_cons_of_mem _ (List.mem_append_right _ (List.mem_cons_self _ _)))

/-! ## Helper lemmas: the upgrade coordinator -/

theorem upgrade_rejected {store : Store} {cand : SchemaVersion} {init : Initializer}
    (h : (validate store.active cand).accepted = false) :
    upgrade store cand init = (store, .rejected (validate store.active cand).conflicts) := by
  simp [upgrade, h]

theorem upgrade_init_failed {store : Store} {cand : SchemaVersion} {init : Initializer}
    (hacc : (validate store.active cand).accepted = true)
    (hfail : init (allocateRanges (slotAssignment store.active) (slotAssignment cand) store.slots).1
      (allocateRanges (slotAssignment store.active) (slotAssignment cand) store.slots).2 = none) :
    upgrade store cand init = (store, .initializerFailed) := by
  simp [upgrade, hacc, hfail]

theorem upgrade_committed {store : Store} {cand : SchemaVersion} {init : Initializer}
    {st : SlotStore}
    (hacc : (validate store.active cand).accepted = true)
    (hok : init (allocateRanges (slotAssignment store.active) (slotAssignment cand) store.slots).1
      (allocateRanges (slotAssignment store.active) (slotAssignment cand) store.slots).2 = some st) :
    upgrade store cand init = (⟨cand, st⟩, .committed) := by
  simp [upgrade, hacc, hok]

theorem upgrade_cases (store : Store) (cand : SchemaVersion) (init : Initializer) :
    upgrade store cand init = (store, .rejected (validate store.active cand).conflicts) ∨
    upgrade store cand init = (store, .initializerFailed) ∨
    (∃ st, upgrade store cand init = (⟨cand, st⟩, .committed) ∧
      (validate store.active cand).accepted = true) := by
  cases hacc : (validate store.active cand).accepted with
  | false => exact Or.inl (upgrade_rejected hacc)
  | true =>
    cases hinit : init
        (allocateRanges (slotAssignment store.active) (slotAssignment cand) store.slots).1
        (allocateRanges (slotAssignment store.active) (slotAssignment cand) store.slots).2 with
    | none => exact Or.inr (Or.inl (upgrade_init_failed hacc hinit))
    | some st => exact Or.inr (Or.inr ⟨st, upgrade_committed hacc hinit, rfl⟩)

/-! ## Helper lemmas: SimpleToken balances -/

theorem sumBalances_cons (e : Address × Nat) (rest : List (Address × Nat)) :
    sumBalances (e :: rest) = e.2 + sumBalances rest := by
  simp [sumBalances]

theorem getBalance_le_sumBalances (bs : List (Address × Nat)) (a : Address) :
    getBalance bs a ≤ sumBalances bs := by
  induction bs with
  | nil => simp [getBalance, sumBalances]
  | cons e rest ih =>
    rw [sumBalances_cons]
    by_cases h : e.1 = a
    · rw [getBalance, if_pos h]
      exact Nat.le_add_right _ _
    · rw [getBalance, if_neg h]
      exact Nat.le_trans ih (Nat.le_add_left _ _)

theorem sumBalances_setBalance (bs : List (Address × Nat)) (a : Address) (v : Nat) :
    sumBalances (setBalance bs a v) + getBalance bs a = sumBalances bs + v := by
  induction bs with
  | nil => simp [setBalance, sumBalances, getBalance]
  | cons e rest ih =>
    by_cases h : e.1 = a
    · rw [setBalance, if_pos h, getBalance, if_pos h, sumBalances_cons, sumBalances_cons]
      omega
    · rw [setBalance, if_neg h, getBalance, if_neg h, sumBalances_cons, sumBalances_cons]
      omega

theorem getBalance_setBalance_same (bs : List (Address × Nat)) (a : Address) (v : Nat) :
    getBalance (setBalance bs a v) a = v := by
  induction bs with
  | nil => simp [setBalance, getBalance]
  | cons e rest ih =>
    by_cases h : e.1 = a
    · rw [setBalance, if_pos h, getBalance, if_pos rfl]
    · rw [setBalance, if_neg h, getBalance, if_neg h]
      exact ih

theorem getBalance_setBalance_ne (bs : List (Address × Nat)) (a x : Address) (v : Nat)
    (h : x ≠ a) : getBalance (setBalance bs a v) x = getBalance bs x := by
  have hax : ¬ a = x := fun hh => h hh.symm
  induction bs with
  | nil => simp [setBalance, getBalance, hax]
  | cons e rest ih =>
    by_cases he : e.1 = a
    · simp [setBalance, he, getBalance, hax]
    · simp [setBalance, he, getBalance, ih]

theorem assignFrom_getElem (comps : List ComponentLayout) (off i : Nat)
    (h : i < comps.length) :
    (assignFrom off comps)[i]? =
      some ((comps.get ⟨i, h⟩).component_id, off + sumCounts (comps.take i),
        (comps.get ⟨i, h⟩).slot_count) := by
  induction comps generalizing off i with
  | nil => simp at h
  | cons c rest ih =>
    cases i with
    | zero => simp [assignFrom, sumCounts]
    | succ n =>
      have hn : n < rest.length := by simpa using h
      rw [assignFrom]
      simp only [List.getElem?_cons_succ, List.get_cons_succ]
      rw [ih _ _ hn, List.take_succ_cons, sumCounts_cons, ← Nat.add_assoc]

/-! ## Helper lemmas: SimpleToken transfer case equations -/

theorem transfer_insufficient {st : TokenState} {sender to_ : Address} {amount : Nat}
    (h : getBalance st.balances sender < amount) :
    transfer st sender to_ amount = .error "Not enough tokens" := by
  unfold transfer
  rw [if_pos h]

theorem transfer_self {st : TokenState} {sender to_ : Address} {amount : Nat}
    (h : ¬ getBalance st.balances sender < amount) (he : sender = to_) :
    transfer st sender to_ amount = .ok (st, []) := by
  unfold transfer
  rw [if_neg h, if_neg (by simp [he])]

theorem transfer_overflow {st : TokenState} {sender to_ : Address} {amount : Nat}
    (h1 : ¬ getBalance st.balances sender < amount) (h2 : sender ≠ to_)
    (h3 : UINT256_MOD ≤
      getBalance (setBalance st.balances sender (getBalance st.balances sender - amount)) to_ +
        amount) :
    transfer st sender to_ amount = .error "arithmetic overflow" := by
  unfold transfer
  rw [if_neg h1, if_pos h2, if_pos h3]

theorem transfer_moves {st : TokenState} {sender to_ : Address} {amount : Nat}
    (h1 : ¬ getBalance st.balances sender < amount) (h2 : sender ≠ to_)
    (h3 : ¬ UINT256_MOD ≤
      getBalance (setBalance st.balances sender (getBalance st.balances sender - amount)) to_ +
        amount) :
    transfer st sender to_ amount =
      .ok (⟨st.name, st.symbol, st.totalSupply, st.owner,
        setBalance (setBalance st.balances sender (getBalance st.balances sender - amount)) to_
          (getBalance (setBalance st.balances sender (getBalance st.balances sender - amount)) to_ +
            amount)⟩,
        [⟨sender, to_, amount⟩]) := by
  unfold transfer
  rw [if_neg h1, if_pos h2, if_neg h3]

theorem no_overflow_of_sum {st : TokenState} {sender : Address} (to_ : Address) {amount : Nat}
    (h1 : amount ≤ getBalance st.balances sender)
    (hsum : sumBalances st.balances = 1000000) :
    ¬ UINT256_MOD ≤
      getBalance (setBalance st.balances sender (getBalance st.balances sender - amount)) to_ +
        amount := by
  have hg := getBalance_le_sumBalances st.balances sender
  have key := sumBalances_setBalance st.balances sender (getBalance st.balances sender - amount)
  have hgb := getBalance_le_sumBalances
    (setBalance st.balances sender (getBalance st.balances sender - amount)) to_
  have hmod : 2000000 < UINT256_MOD := by decide
  omega

theorem transferPost_of_error {st : TokenState} {sender to_ : Address} {amount : Nat}
    {msg : String} (h : transfer st sender to_ amount = .error msg) :
    transferPost st sender to_ amount = st := by
  unfold transferPost
  rw [h]

theorem transferPost_of_ok {st st' : TokenState} {sender to_ : Address} {amount : Nat}
    {evs : List TransferEvent} (h : transfer st sender to_ amount = .ok (st', evs)) :
    transferPost st sender to_ amount = st' := by
  unfold transferPost
  rw [h]

/-! ## Claim theorems -/

/-- C1: for every pair of schema versions, `validate` reports a conflict for
each component_id present in `old`'s slot assignment that is missing from
`new`'s assignment or whose assigned range in `new` differs in start or
length; in particular, changing an existing component's slot_count from `k`
to `k' ≠ k` always yields a layout conflict naming that component, and the
upgrade is rejected. -/
theorem C1_old_components_preserved :
    (∀ (old cand : SchemaVersion) (e : String × Nat × Nat),
      e ∈ slotAssignment old →
      findRange e.1 (slotAssignment cand) ≠ some e.2 →
      Conflict.layout e.1 (some e.2) (findRange e.1 (slotAssignment cand)) ∈
        (validate old cand).conflicts) ∧
    (∀ (pre post : List ComponentLayout) (cid : String) (k k' v v' : Nat)
      (tag tag' : String),
      k ≠ k' →
      cid ∉ pre.map ComponentLayout.component_id →
      Conflict.layout cid (some (sumCounts pre, k)) (some (sumCounts pre, k')) ∈
        (validate ⟨v, pre ++ ⟨cid, k⟩ :: post, tag⟩
                  ⟨v', pre ++ ⟨cid, k'⟩ :: post, tag'⟩).conflicts ∧
      (validate ⟨v, pre ++ ⟨cid, k⟩ :: post, tag⟩
                ⟨v', pre ++ ⟨cid, k'⟩ :: post, tag'⟩).accepted = false) := by
  constructor
  · intro old cand e hm hne
    exact mem_conflicts_of_old_mismatch hm hne
  · intro pre post cid k k' v v' tag tag' hkk hpre
    have hm : ((cid, sumCounts pre, k) : String × Nat × Nat) ∈
        slotAssignment ⟨v, pre ++ ⟨cid, k⟩ :: post, tag⟩ := by
      show ((cid, sumCounts pre, k) : String × Nat × Nat) ∈
        assignFrom 0 (pre ++ ⟨cid, k⟩ :: post)
      rw [assignFrom_append]
      simp [assignFrom]
    have hf : findRange cid (slotAssignment ⟨v', pre ++ ⟨cid, k'⟩ :: post, tag'⟩) =
        some (sumCounts pre, k') := by
      show findRange cid (assignFrom 0 (pre ++ ⟨cid, k'⟩ :: post)) = _
      rw [assignFrom_append, findRange_append_right (findRange_assignFrom_not_mem hpre)]
      simp [findRange]
    have hne : findRange cid (slotAssignment ⟨v', pre ++ ⟨cid, k'⟩ :: post, tag'⟩) ≠
        some (sumCounts pre, k) := by
      rw [hf]
      intro hsome
      rw [Option.some_inj, Prod.mk.injEq] at hsome
      exact hkk hsome.2.symm
    have hmem := mem_conflicts_of_old_mismatch hm hne
    rw [hf] at hmem
    exact ⟨hmem, not_accepted_of_mem_conflicts hmem⟩

/-- C1 witness: changing `counter`'s slot_count from 1 to 2 between versions
2 and 3 yields a layout conflict naming `counter`, and the upgrade is
rejected. -/
theorem C1_witness :
    Conflict.layout "counter" (some (sumCounts [⟨"erc721base", 5⟩], 1))
        (some (sumCounts [⟨"erc721base", 5⟩], 2)) ∈
      (validate ⟨2, [⟨"erc721base", 5⟩] ++ ⟨"counter", 1⟩ :: [], "a"⟩
                ⟨3, [⟨"erc721base", 5⟩] ++ ⟨"counter", 2⟩ :: [], "b"⟩).conflicts ∧
    (validate ⟨2, [⟨"erc721base", 5⟩] ++ ⟨"counter", 1⟩ :: [], "a"⟩
              ⟨3, [⟨"erc721base", 5⟩] ++ ⟨"counter", 2⟩ :: [], "b"⟩).accepted = false :=
  C1_old_components_preserved.2 [⟨"erc721base", 5⟩] [] "counter" 1 2 2 3 "a" "b"
    (by decide) (by decide)

/-- C2: a component appearing only in `cand`'s assignment is conflict-free
iff its range lies entirely beyond the highest slot used by `old` (its start
is at or beyond `old`'s high-water mark), and along every sequence of
well-formed schema versions built by strictly appending new layouts after
the existing ones (names and counts unchanged, version rising), every
consecutive pair validates. -/
theorem C2_append_only_accepted :
    (∀ (old cand : SchemaVersion) (e : String × Nat × Nat),
      e ∈ slotAssignment cand →
      findRange e.1 (slotAssignment old) = none →
      (Conflict.layout e.1 none (some e.2) ∉ (validate old cand).conflicts ↔
        totalSlots old ≤ e.2.1)) ∧
    (∀ vs : List SchemaVersion,
      vs.Chain' appendsTo →
      (∀ v ∈ vs, wellFormed v) →
      ∀ i : Nat, ∀ h : i + 1 < vs.length,
        (validate (vs.get ⟨i, Nat.lt_of_succ_lt h⟩) (vs.get ⟨i + 1, h⟩)).accepted = true) := by
  constructor
  · intro old cand e hm hnone
    simpa [Nat.not_lt] using (new_only_conflict_iff hm hnone).not
  · intro vs hchain hwf i h
    have hstep := List.chain'_iff_get.mp hchain i (by omega)
    obtain ⟨hv, extra, hext⟩ := hstep
    exact accepted_of_append (hwf _ (vs.get_mem _ _)) hv hext

/-- C2 witness: `escrow` inserted at slot 5 (below `exV2`'s high-water mark
6) is flagged, and the append-only step from `exV1` to `exV2` validates. -/
theorem C2_witness :
    (Conflict.layout "escrow" none (some (5, 3)) ∉ (validate exV2 exV3bad).conflicts ↔
      totalSlots exV2 ≤ 5) ∧
    (validate exV1 exV2).accepted = true :=
  ⟨C2_append_only_accepted.1 exV2 exV3bad ("escrow", 5, 3) (by decide) (by decide),
   C2_append_only_accepted.2 [exV1, exV2]
    (List.chain'_cons.mpr ⟨⟨by decide, [⟨"counter", 1⟩], by decide⟩, List.chain'_singleton _⟩)
    (by decide) 0 (by decide)⟩

/-- C3: the slot assignment walks the components in declared order starting
at offset 0: the component ids appear in declaration order with no
reordering of any kind, the i-th entry carries the i-th declared component's
id, the prefix sum of the preceding slot counts as start and its slot_count
as length, and the assignment is a pure function of the declared component
list, so recomputing it for the same SchemaVersion yields identical
ranges. -/
theorem C3_assignment_ordered_pure :
    (∀ sv : SchemaVersion, (slotAssignment sv).map (fun e => e.1) =
      sv.components.map ComponentLayout.component_id) ∧
    (∀ (sv : SchemaVersion) (i : Nat), ∀ h : i < sv.components.length,
      (slotAssignment sv)[i]? =
        some ((sv.components.get ⟨i, h⟩).component_id,
          sumCounts (sv.components.take i),
          (sv.components.get ⟨i, h⟩).slot_count)) ∧
    (∀ sv sv' : SchemaVersion, sv.components = sv'.components →
      slotAssignment sv = slotAssignment sv') := by
  refine ⟨fun sv => map_fst_assignFrom 0 sv.components, ?_, ?_⟩
  · intro sv i h
    rw [slotAssignment, assignFrom_getElem sv.components 0 i h, Nat.zero_add]
  · intro sv sv' h
    rw [slotAssignment, slotAssignment, h]

/-- C3 witness: in `exV2`, entry 1 is `counter` starting at slot 5 (the sum
of the preceding counts) with length 1, and recomputing the assignment for a
schema with the same components yields the identical ranges. -/
theorem C3_witness :
    (slotAssignment exV2)[1]? =
      some ((exV2.components.get ⟨1, by decide⟩).component_id,
        sumCounts (exV2.components.take 1),
        (exV2.components.get ⟨1, by decide⟩).slot_count) ∧
    slotAssignment exV2 = slotAssignment ⟨99, exV2.components, "recomputed"⟩ :=
  ⟨C3_assignment_ordered_pure.2.1 exV2 1 (by decide),
   C3_assignment_ordered_pure.2.2 exV2 ⟨99, exV2.components, "recomputed"⟩ rfl⟩

/-- C4: every failed upgrade attempt leaves the store unchanged: on
validation rejection the store (active schema included) is untouched and the
conflict list is surfaced to the caller; any non-committed outcome
(rejection or initializer failure) leaves the store exactly as before, the
swap being rolled back with the initializer as one atomic unit; and the
active schema can only differ from the prior one after a committed upgrade,
so no slots are reachable under a new schema without the initializer having
completed. -/
theorem C4_failed_upgrade_atomic :
    ∀ (store : Store) (cand : SchemaVersion) (init : Initializer),
      ((validate store.active cand).accepted = false →
        upgrade store cand init =
          (store, .rejected (validate store.active cand).conflicts)) ∧
      ((upgrade store cand init).2 ≠ .committed → (upgrade store cand init).1 = store) ∧
      ((upgrade store cand init).1.active ≠ store.active →
        (upgrade store cand init).2 = .committed) := by
  intro store cand init
  refine ⟨fun h => upgrade_rejected h, ?_, ?_⟩
  · intro hne
    rcases upgrade_cases store cand init with h | h | ⟨st, h, _⟩
    · rw [h]
    · rw [h]
    · rw [h] at hne
      exact absurd rfl hne
  · intro hne
    rcases upgrade_cases store cand init with h | h | ⟨st, h, _⟩
    · rw [h] at hne
      exact absurd rfl hne
    · rw [h] at hne
      exact absurd rfl hne
    · rw [h]

/-- C4 witness: upgrading `exStore` to the mid-inserting `exV3bad` is
rejected with the conflicts surfaced and the store unchanged, and a failing
initializer on the valid `exV3good` leaves the store unchanged. -/
theorem C4_witness :
    upgrade exStore exV3bad initOk =
      (exStore, .rejected (validate exStore.active exV3bad).conflicts) ∧
    (upgrade exStore exV3good initFail).1 = exStore :=
  ⟨(C4_failed_upgrade_atomic exStore exV3bad initOk).1 (by decide),
   (C4_failed_upgrade_atomic exStore exV3good initFail).2.1 (by decide)⟩

/-- C5: `validate` rejects with a version-ordering conflict whenever the
candidate's version_number is not strictly greater than the active one; the
active schema is replaced (by the candidate, strictly raising the version)
exactly on a committed upgrade and is untouched otherwise, so the active
version_number never decreases and strictly increases on every commit. -/
theorem C5_version_strictly_increases :
    (∀ old cand : SchemaVersion,
      ¬ old.version_number < cand.version_number →
      (validate old cand).accepted = false ∧
      Conflict.versionOrdering old.version_number cand.version_number ∈
        (validate old cand).conflicts) ∧
    (∀ (store : Store) (cand : SchemaVersion) (init : Initializer),
      store.active.version_number ≤ (upgrade store cand init).1.active.version_number ∧
      ((upgrade store cand init).2 = .committed →
        (upgrade store cand init).1.active = cand ∧
        store.active.version_number < (upgrade store cand init).1.active.version_number) ∧
      ((upgrade store cand init).2 ≠ .committed →
        (upgrade store cand init).1.active = store.active)) := by
  constructor
  · intro old cand h
    have hmem := mem_conflicts_of_version h
    exact ⟨not_accepted_of_mem_conflicts hmem, hmem⟩
  · intro store cand init
    rcases upgrade_cases store cand init with h | h | ⟨st, h, hacc⟩
    · rw [h]
      exact ⟨Nat.le_refl _, fun hc => absurd hc (by simp), fun _ => rfl⟩
    · rw [h]
      exact ⟨Nat.le_refl _, fun hc => absurd hc (by simp), fun _ => rfl⟩
    · rw [h]
      have hv := version_lt_of_accepted hacc
      exact ⟨Nat.le_of_lt hv, fun _ => ⟨rfl, hv⟩, fun hc => absurd rfl hc⟩

/-- C5 witness: downgrading from version 2 to version 1 is rejected with a
version-ordering conflict, and committing `exV3good` over `exStore` swaps in
the candidate and strictly raises the active version. -/
theorem C5_witness :
    ((validate exV2 exV1).accepted = false ∧
      Conflict.versionOrdering 2 1 ∈ (validate exV2 exV1).conflicts) ∧
    ((upgrade exStore exV3good initOk).1.active = exV3good ∧
      exStore.active.version_number <
        (upgrade exStore exV3good initOk).1.active.version_number) :=
  ⟨C5_version_strictly_increases.1 exV2 exV1 (by decide),
   (C5_version_strictly_increases.2 exStore exV3good initOk).2.1 (by decide)⟩

/-- C6: the MigrationReport accepts exactly when its conflict list is empty,
and the list enumerates every conflict present, not just the first: every
old-component mismatch (missing, moved or resized), every mid-inserted
new-only component and any version-ordering violation each contribute their
conflict to the returned list. -/
theorem C6_report_enumerates_all_conflicts :
    (∀ old cand : SchemaVersion,
      (validate old cand).accepted = true ↔ (validate old cand).conflicts = []) ∧
    (∀ (old cand : SchemaVersion) (e : String × Nat × Nat),
      e ∈ slotAssignment old →
      findRange e.1 (slotAssignment cand) ≠ some e.2 →
      Conflict.layout e.1 (some e.2) (findRange e.1 (slotAssignment cand)) ∈
        (validate old cand).conflicts) ∧
    (∀ (old cand : SchemaVersion) (e : String × Nat × Nat),
      e ∈ slotAssignment cand →
      findRange e.1 (slotAssignment old) = none →
      e.2.1 < totalSlots old →
      Conflict.layout e.1 none (some e.2) ∈ (validate old cand).conflicts) ∧
    (∀ old cand : SchemaVersion,
      ¬ old.version_number < cand.version_number →
      Conflict.versionOrdering old.version_number cand.version_number ∈
        (validate old cand).conflicts) :=
  ⟨accepted_iff_conflicts_eq_nil,
   fun _ _ _ hm hne => mem_conflicts_of_old_mismatch hm hne,
   fun _ _ _ hm hn hlt => mem_conflicts_of_new_inserted hm hn hlt,
   fun _ _ h => mem_conflicts_of_version h⟩

/-- C6 witness: validating `exV2` against the mid-inserting `exV3bad`
surfaces both the shifted `counter` conflict and the mid-inserted `escrow`
conflict in one report. -/
theorem C6_witness :
    Conflict.layout "counter" (some (5, 1)) (findRange "counter" (slotAssignment exV3bad)) ∈
      (validate exV2 exV3bad).conflicts ∧
    Conflict.layout "escrow" none (some (5, 3)) ∈ (validate exV2 exV3bad).conflicts :=
  ⟨C6_report_enumerates_all_conflicts.2.1 exV2 exV3bad ("counter", 5, 1)
      (by decide) (by decide),
   C6_report_enumerates_all_conflicts.2.2.1 exV2 exV3bad ("escrow", 5, 3)
      (by decide) (by decide) (by decide)⟩

/-- C7 counterexample: `swapOld` and `swapNew` contain the same set of
ComponentLayouts in a different sequence, obtained by swapping the two
components `a` and `b` which both have slot_count 0, and the version number
rises; yet `validate` rejects the transition, because the positive-length
component `m` between them displaces the swapped ranges. The claim's sole
exception (swapped components of length 0) therefore does not suffice. -/
theorem C7_counterexample_zero_swap_rejected :
    swapOld.components = [⟨"a", 0⟩, ⟨"m", 1⟩, ⟨"b", 0⟩] ∧
    swapNew.components = [⟨"b", 0⟩, ⟨"m", 1⟩, ⟨"a", 0⟩] ∧
    swapOld.version_number < swapNew.version_number ∧
    (validate swapOld swapNew).accepted = false ∧
    Conflict.layout "a" (some (0, 0)) (some (1, 0)) ∈ (validate swapOld swapNew).conflicts := by
  decide

/-- C7 (amended): for two well-formed SchemaVersions holding the same set of
ComponentLayouts with two components `a` and `b` swapped (version number
rising), `validate` accepts iff the swap moves no range at all: both swapped
components have slot_count 0 and the components between them also have total
slot_count 0; in every other case the transition is rejected. -/
theorem C7_reorder_rejected_iff :
    ∀ (pre mid post : List ComponentLayout) (a b : ComponentLayout)
      (v v' : Nat) (tag tag' : String),
      ((pre ++ a :: (mid ++ b :: post)).map ComponentLayout.component_id).Nodup →
      v < v' →
      ((validate ⟨v, pre ++ a :: (mid ++ b :: post), tag⟩
                 ⟨v', pre ++ b :: (mid ++ a :: post), tag'⟩).accepted = true ↔
        (a.slot_count = 0 ∧ b.slot_count = 0 ∧ sumCounts mid = 0)) := by
  intro pre mid post a b v v' tag tag' hnd hv
  obtain ⟨hapre, hbpre, hamid, hbmid, hab⟩ := swap_nodup_facts hnd
  constructor
  · intro hacc
    have hnil := (accepted_iff_conflicts_eq_nil _ _).mp hacc
    rw [validate_conflicts] at hnil
    rcases List.append_eq_nil.mp hnil with ⟨hnil', _⟩
    rcases List.append_eq_nil.mp hnil' with ⟨hold, _⟩
    have hall := List.filterMap_eq_nil_iff.mp hold
    have hfa : findRange a.component_id
        (slotAssignment ⟨v', pre ++ b :: (mid ++ a :: post), tag'⟩) =
        some (sumCounts pre, a.slot_count) := by
      have hmema : ((a.component_id, sumCounts pre, a.slot_count) : String × Nat × Nat) ∈
          slotAssignment ⟨v, pre ++ a :: (mid ++ b :: post), tag⟩ :=
        mem_swap_first a b pre mid post
      exact checkOld_eq_none_iff.mp (hall _ hmema)
    have hfb : findRange b.component_id
        (slotAssignment ⟨v', pre ++ b :: (mid ++ a :: post), tag'⟩) =
        some (sumCounts pre + a.slot_count + sumCounts mid, b.slot_count) := by
      have hmemb : ((b.component_id, sumCounts pre + a.slot_count + sumCounts mid,
          b.slot_count) : String × Nat × Nat) ∈
          slotAssignment ⟨v, pre ++ a :: (mid ++ b :: post), tag⟩ :=
        mem_swap_second a b pre mid post
      exact checkOld_eq_none_iff.mp (hall _ hmemb)
    have hfa' : findRange a.component_id
        (slotAssignment ⟨v', pre ++ b :: (mid ++ a :: post), tag'⟩) =
        some (sumCounts pre + b.slot_count + sumCounts mid, a.slot_count) :=
      findRange_swapped_second post hapre (Ne.symm hab) hamid
    have hfb' : findRange b.component_id
        (slotAssignment ⟨v', pre ++ b :: (mid ++ a :: post), tag'⟩) =
        some (sumCounts pre, b.slot_count) :=
      findRange_swapped_first a mid post hbpre
    rw [hfa'] at hfa
    rw [hfb'] at hfb
    rw [Option.some_inj, Prod.mk.injEq] at hfa hfb
    have h1 := hfa.1
    have h2 := hfb.1
    omega
  · rintro ⟨ha0, hb0, hm0⟩
    refine accepted_of_perm_assignment ?_ ?_ hv
    · show ((assignFrom 0 (pre ++ a :: (mid ++ b :: post))).map (fun e => e.1)).Nodup
      rw [map_fst_assignFrom]
      exact hnd
    · show (assignFrom 0 (pre ++ a :: (mid ++ b :: post))).Perm
        (assignFrom 0 (pre ++ b :: (mid ++ a :: post)))
      rw [assignFrom_swap_shape a b, assignFrom_swap_shape b a, ha0, hb0, hm0]
      simp only [Nat.add_zero]
      exact perm_swap_shape _ _ _ _ _

/-- C7 witness (for the amended claim): swapping the two adjacent length-0
components `a` and `b` in front of `c` leaves every range unchanged and the
transition is accepted. -/
theorem C7_witness :
    (validate ⟨1, [] ++ ⟨"a", 0⟩ :: ([] ++ ⟨"b", 0⟩ :: [⟨"c", 2⟩]), "t1"⟩
              ⟨2, [] ++ ⟨"b", 0⟩ :: ([] ++ ⟨"a", 0⟩ :: [⟨"c", 2⟩]), "t2"⟩).accepted = true :=
  (C7_reorder_rejected_iff [] [] [⟨"c", 2⟩] ⟨"a", 0⟩ ⟨"b", 0⟩ 1 2 "t1" "t2"
    (by decide) (by decide)).mpr (by decide)

/-- C8: the `SimpleToken` constructor assigns the entire totalSupply of
1,000,000 tokens to the deploying account, and every call to `transfer`
(reverting, self-transfer, or moving tokens) leaves the sum of all account
balances and the totalSupply unchanged, so the sum always equals
totalSupply. -/
theorem C8_supply_conserved :
    (∀ d : Address, (constructor d).balances = [(d, 1000000)] ∧
      (constructor d).totalSupply = 1000000 ∧
      sumBalances (constructor d).balances = (constructor d).totalSupply) ∧
    (∀ (st : TokenState) (sender to_ : Address) (amount : Nat),
      sumBalances (transferPost st sender to_ amount).balances = sumBalances st.balances ∧
      (transferPost st sender to_ amount).totalSupply = st.totalSupply) := by
  constructor
  · intro d
    refine ⟨rfl, rfl, ?_⟩
    simp [constructor, sumBalances]
  · intro st sender to_ amount
    by_cases h1 : getBalance st.balances sender < amount
    · rw [transferPost_of_error (transfer_insufficient h1)]
      exact ⟨rfl, rfl⟩
    · by_cases h2 : sender ≠ to_
      · by_cases h3 : UINT256_MOD ≤
            getBalance (setBalance st.balances sender
              (getBalance st.balances sender - amount)) to_ + amount
        · rw [transferPost_of_error (transfer_overflow h1 h2 h3)]
          exact ⟨rfl, rfl⟩
        · rw [transferPost_of_ok (transfer_moves h1 h2 h3)]
          refine ⟨?_, rfl⟩
          show sumBalances
            (setBalance (setBalance st.balances sender (getBalance st.balances sender - amount)) to_
              (getBalance (setBalance st.balances sender
                (getBalance st.balances sender - amount)) to_ + amount)) =
            sumBalances st.balances
          have key1 := sumBalances_setBalance st.balances sender
            (getBalance st.balances sender - amount)
          have key2 := sumBalances_setBalance
            (setBalance st.balances sender (getBalance st.balances sender - amount)) to_
            (getBalance (setBalance st.balances sender
              (getBalance st.balances sender - amount)) to_ + amount)
          have hg := getBalance_le_sumBalances st.balances sender
          omega
      · rw [transferPost_of_ok (transfer_self h1 (not_not.mp h2))]
        exact ⟨rfl, rfl⟩

/-- C9: `transfer` reverts with "Not enough tokens" iff the sender's balance
is less than the amount (a revert commits no state change); with sufficient
balance, a self-transfer succeeds changing no balances and emitting no
Transfer event; otherwise, in any state satisfying the contract's supply
invariant (sum of balances 1,000,000, which rules out the checked-arithmetic
overflow), it subtracts the amount from the sender, adds it to the
recipient, leaves every other balance unchanged, and emits
`Transfer(sender, to, amount)`. -/
theorem C9_transfer_exact_semantics :
    ∀ (st : TokenState) (sender to_ : Address) (amount : Nat),
      (transfer st sender to_ amount = .error "Not enough tokens" ↔
        getBalance st.balances sender < amount) ∧
      (amount ≤ getBalance st.balances sender → sender = to_ →
        transfer st sender to_ amount = .ok (st, [])) ∧
      (amount ≤ getBalance st.balances sender → sender ≠ to_ →
        sumBalances st.balances = 1000000 →
        transfer st sender to_ amount =
          .ok (transferPost st sender to_ amount, [⟨sender, to_, amount⟩]) ∧
        getBalance (transferPost st sender to_ amount).balances sender =
          getBalance st.balances sender - amount ∧
        getBalance (transferPost st sender to_ amount).balances to_ =
          getBalance st.balances to_ + amount ∧
        (∀ x : Address, x ≠ sender → x ≠ to_ →
          getBalance (transferPost st sender to_ amount).balances x =
            getBalance st.balances x)) := by
  intro st sender to_ amount
  refine ⟨⟨?_, fun hlt => transfer_insufficient hlt⟩, ?_, ?_⟩
  · intro herr
    by_contra hge
    by_cases h2 : sender ≠ to_
    · by_cases h3 : UINT256_MOD ≤
          getBalance (setBalance st.balances sender
            (getBalance st.balances sender - amount)) to_ + amount
      · rw [transfer_overflow hge h2 h3] at herr
        injection herr with hmsg
        exact absurd hmsg (by decide)
      · rw [transfer_moves hge h2 h3] at herr
        exact Except.noConfusion herr
    · rw [transfer_self hge (not_not.mp h2)] at herr
      exact Except.noConfusion herr
  · intro hle he
    exact transfer_self (Nat.not_lt.mpr hle) he
  · intro hle h2 hsum
    have h1 : ¬ getBalance st.balances sender < amount := Nat.not_lt.mpr hle
    have h3 := no_overflow_of_sum to_ hle hsum
    have heq := transfer_moves h1 h2 h3
    have hpost := transferPost_of_ok heq
    refine ⟨by rw [hpost]; exact heq, ?_, ?_, ?_⟩
    · rw [hpost]
      show getBalance (setBalance _ to_ _) sender = _
      rw [getBalance_setBalance_ne _ _ _ _ h2, getBalance_setBalance_same]
    · rw [hpost]
      show getBalance (setBalance _ to_ _) to_ = _
      rw [getBalance_setBalance_same,
        getBalance_setBalance_ne _ _ _ _ (Ne.symm h2)]
    · intro x hxs hxt
      rw [hpost]
      show getBalance (setBalance _ to_ _) x = _
      rw [getBalance_setBalance_ne _ _ _ _ hxt, getBalance_setBalance_ne _ _ _ _ hxs]

/-- C9 witness: from the freshly constructed state (deployer 1 holds the
full supply), transferring more than the balance is characterized by the
"Not enough tokens" revert, a self-transfer changes nothing and emits no
event, and a proper transfer of 5 tokens to account 2 moves exactly 5
tokens with a Transfer event. -/
theorem C9_witness :
    (transfer (constructor 1) 1 2 2000000 = .error "Not enough tokens" ↔
      getBalance (constructor 1).balances 1 < 2000000) ∧
    transfer (constructor 1) 1 1 5 = .ok (constructor 1, []) ∧
    transfer (constructor 1) 1 2 5 =
      .ok (transferPost (constructor 1) 1 2 5, [⟨1, 2, 5⟩]) ∧
    getBalance (transferPost (constructor 1) 1 2 5).balances 1 =
      getBalance (constructor 1).balances 1 - 5 ∧
    getBalance (transferPost (constructor 1) 1 2 5).balances 2 =
      getBalance (constructor 1).balances 2 + 5 := by
  have h3 := (C9_transfer_exact_semantics (constructor 1) 1 2 5).2.2
    (by decide) (by decide) (by decide)
  exact ⟨(C9_transfer_exact_semantics (constructor 1) 1 2 2000000).1,
    (C9_transfer_exact_semantics (constructor 1) 1 1 5).2.1 (by decide) rfl,
    h3.1, h3.2.1, h3.2.2.1⟩

/-- C10: `PetShopV3.mintToken` reverts with "Max supply reached" when the
token counter has reached 10,000 (TOTAL_SUPPLY), reverts with "Transaction
value did not equal the mint price" whenever the value sent differs from
exactly 0.08 ether (MINT_PRICE, whether lower, higher or zero), and on
success returns token ID `previous count + 1` while advancing the counter
to it, so IDs are sequential from 1 and never reused. -/
theorem C10_mint_token_semantics :
    ∀ (st : NFTState) (uri : String) (to_ : Address) (msgValue : Nat),
      (TOTAL_SUPPLY ≤ st.tokenIds →
        mintToken st uri to_ msgValue = .error "Max supply reached") ∧
      (st.tokenIds < TOTAL_SUPPLY → msgValue ≠ MINT_PRICE →
        mintToken st uri to_ msgValue =
          .error "Transaction value did not equal the mint price") ∧
      (st.tokenIds < TOTAL_SUPPLY → msgValue = MINT_PRICE →
        mintToken st uri to_ msgValue =
          .ok (⟨st.tokenIds + 1, (st.tokenIds + 1, to_) :: st.owners,
            (st.tokenIds + 1, uri) :: st.tokenURIs, st.balance + msgValue⟩,
            st.tokenIds + 1)) := by
  intro st uri to_ msgValue
  refine ⟨?_, ?_, ?_⟩
  · intro h
    simp only [mintToken]
    rw [if_pos (Nat.not_lt.mpr h)]
  · intro h1 h2
    simp only [mintToken]
    rw [if_neg (not_not_intro h1), if_pos h2]
  · intro h1 h2
    simp only [mintToken]
    rw [if_neg (not_not_intro h1), if_neg (not_not_intro h2)]

/-- C10 witness: at counter 10,000 minting reverts with "Max supply
reached"; at counter 3 sending 5 wei reverts with the mint-price message;
at counter 3 sending exactly MINT_PRICE mints token 4. -/
theorem C10_witness :
    mintToken ⟨10000, [], [], 0⟩ "u" 7 MINT_PRICE = .error "Max supply reached" ∧
    mintToken ⟨3, [], [], 0⟩ "u" 7 5 =
      .error "Transaction value did not equal the mint price" ∧
    mintToken ⟨3, [], [], 0⟩ "u" 7 MINT_PRICE =
      .ok (⟨4, [(4, 7)], [(4, "u")], 0 + MINT_PRICE⟩, 4) :=
  ⟨(C10_mint_token_semantics ⟨10000, [], [], 0⟩ "u" 7 MINT_PRICE).1 (by decide),
   (C10_mint_token_semantics ⟨3, [], [], 0⟩ "u" 7 5).2.1 (by decide) (by decide),
   (C10_mint_token_semantics ⟨3, [], [], 0⟩ "u" 7 MINT_PRICE).2.2 (by decide) rfl⟩

end PetShop
